import Mathlib

/-!
Verification of the gesture-driven deformation and rendering engine
(WeaveCanvas). The repository contains two configuration variants of the
same component: a LINES-topology variant (src/components/WeaveCanvas.tsx)
and a SCATTER/points-topology variant (src/unnamed/part_000). Both are
embedded below over exact rationals. GLSL builtins sin and cos are
transcendental, so the per-vertex deformation functions take them as
uninterpreted function parameters; the Euclidean distance between the
projected vertex and the hand (an irrational square root) is likewise
passed in as a nonnegative rational parameter. All strict comparisons of
Euclidean distances against constants or scaled distances in the gesture
classifier are embedded as the equivalent comparisons of squared
distances, which keeps every definition computable over the rationals.
-/

namespace Weave

/-- GLSL mix(x, y, a) = x + (y - x) * a. -/
def mixq (x y a : ℚ) : ℚ := x + (y - x) * a

/-- GLSL clamp(x, lo, hi) = min(max(x, lo), hi). -/
def clampq (x lo hi : ℚ) : ℚ := min (max x lo) hi

/-- GLSL smoothstep(edge0, edge1, x): Hermite interpolation of the clamped
normalized parameter. -/
def smoothstepq (e0 e1 x : ℚ) : ℚ :=
  let t := clampq ((x - e0) / (e1 - e0)) 0 1
  t * t * (3 - 2 * t)

/-- Squared Euclidean distance between two planar points; the source code
compares Math.hypot results, which is equivalent to comparing these
squares. -/
def dist2 (p q : ℚ × ℚ) : ℚ := (p.1 - q.1) ^ 2 + (p.2 - q.2) ^ 2

/-! ## Reveal Mask Painter

Embedding of the per-frame paint stamp of the render loop (both variants
are identical here). When the gesture is FIST, the code stamps a radial
gradient from rgba(255,255,255,0.2) at the center to rgba(255,255,255,0)
at radius 80 into the mask canvas with globalCompositeOperation set to
lighten. Per the canvas compositing model, for an opaque destination of
value m and a white source of coverage a, the lighten blend followed by
source-over compositing yields a * max(m, 1) + (1 - a) * m. -/

/-- Lighten-composite one brush sample of coverage `a` (white source) over
a mask pixel of value `m`. -/
def applyStroke (a m : ℚ) : ℚ := a * max m 1 + (1 - a) * m

/-- Coverage of the radial brush at distance `d` from the stamp center:
linear gradient from 0.2 at the center to 0 at radius 80, zero outside. -/
def brushAlpha (d : ℚ) : ℚ := if d < 80 then 0.2 * (1 - d / 80) else 0

/-- Value of one mask pixel after a sequence of FIST stamps whose centers
lie at the given distances from the pixel. -/
def paintPixel (m : ℚ) (ds : List ℚ) : ℚ :=
  ds.foldl (fun acc d => applyStroke (brushAlpha d) acc) m

/-- Mask contents right after a display-size change: the resize branch of
the render loop reallocates the canvas at the new dimensions and fills it
with black, so every pixel reads 0. -/
def resizedMask : ℤ × ℤ → ℚ := fun _ => 0

/-! ## Gesture Classifier

The detection loop (predict) reads seven named landmarks of the first
detected hand. Distances in the source are Math.hypot values compared
against constants or scaled distances; we compare the equivalent squared
quantities (a < b with a, b nonnegative iff a^2 < b^2), so 0.85 becomes
0.7225, 0.8 becomes 0.64 and 0.05 becomes 0.0025 on the squared side. -/

/-- Planar positions of the landmarks used by predict: wrist = lm[0],
thumb tip = lm[4], index tip = lm[8], middle tip = lm[12], middle base =
lm[9], ring tip = lm[16], ring base = lm[13]. The z coordinate is never
read by the source, so it is omitted. -/
structure Landmarks where
  wrist : ℚ × ℚ
  thumbTip : ℚ × ℚ
  indexTip : ℚ × ℚ
  middleTip : ℚ × ℚ
  middleMcp : ℚ × ℚ
  ringTip : ℚ × ℚ
  ringMcp : ℚ × ℚ

/-- Squared pinch distance, embedding Math.hypot(thumbTip - indexTip). -/
def pinch2 (lm : Landmarks) : ℚ := dist2 lm.thumbTip lm.indexTip

/-- Fist test of the LINES variant: middle and ring fingertip distances to
the wrist are each below 0.85 times the corresponding base distance
(squared form of distMiddleTip < distMiddleBase * 0.85 and likewise for
the ring finger). -/
def isFistLines (lm : Landmarks) : Prop :=
  dist2 lm.middleTip lm.wrist < 0.7225 * dist2 lm.middleMcp lm.wrist ∧
  dist2 lm.ringTip lm.wrist < 0.7225 * dist2 lm.ringMcp lm.wrist

instance (lm : Landmarks) : Decidable (isFistLines lm) := by
  unfold isFistLines; infer_instance

/-- Fist test of the SCATTER variant: only the middle finger, with factor
0.8 (squared form of distTip < distBase * 0.8). -/
def isFistScatter (lm : Landmarks) : Prop :=
  dist2 lm.middleTip lm.wrist < 0.64 * dist2 lm.middleMcp lm.wrist

instance (lm : Landmarks) : Decidable (isFistScatter lm) := by
  unfold isFistScatter; infer_instance

/-- Gesture code assignment of the LINES variant: fist is tested first,
then pinch, else open (codes 1, 4, 2). -/
def classifyLines (lm : Landmarks) : ℚ :=
  if isFistLines lm then 1 else if pinch2 lm < 0.0025 then 4 else 2

/-- Gesture code assignment of the SCATTER variant: pinch is tested first,
then fist, else open (codes 4, 1, 2). -/
def classifyScatter (lm : Landmarks) : ℚ :=
  if pinch2 lm < 0.0025 then 4 else if isFistScatter lm then 1 else 2

/-- Mutable state of the detection loop: smoothed hand position, the
previous raw target, smoothed velocity, and the current gesture code. -/
structure HandState where
  pos : ℚ × ℚ
  prevPos : ℚ × ℚ
  vel : ℚ × ℚ
  gesture : ℚ

/-- Initial values of the refs handPos, prevHandPos, handVel, gesture. -/
def initState : HandState := ⟨(0.5, 0.5), (0.5, 0.5), (0, 0), 0⟩

/-- One detection cycle of the LINES variant. With a detected hand the
raw target is the x-mirrored middle base landmark, velocity is
exponentially smoothed with factor 0.8/0.2, position approaches the
target by factor 0.3, and the gesture is classified; with no hand the
gesture is reset to 0 and both velocity components decay by 0.9 while the
position and previous target are left untouched. -/
def detectStepLines (s : HandState) (input : Option Landmarks) : HandState :=
  match input with
  | some lm =>
      let targetX := 1 - lm.middleMcp.1
      let targetY := lm.middleMcp.2
      let dx := targetX - s.prevPos.1
      let dy := targetY - s.prevPos.2
      { pos := (s.pos.1 + (targetX - s.pos.1) * 0.3,
                s.pos.2 + (targetY - s.pos.2) * 0.3),
        prevPos := (targetX, targetY),
        vel := (s.vel.1 * 0.8 + dx * 0.2, s.vel.2 * 0.8 + dy * 0.2),
        gesture := classifyLines lm }
  | none =>
      { s with gesture := 0, vel := (s.vel.1 * 0.9, s.vel.2 * 0.9) }

/-- One detection cycle of the SCATTER variant; identical to the LINES
variant except for the gesture classification order. -/
def detectStepScatter (s : HandState) (input : Option Landmarks) : HandState :=
  match input with
  | some lm =>
      let targetX := 1 - lm.middleMcp.1
      let targetY := lm.middleMcp.2
      let dx := targetX - s.prevPos.1
      let dy := targetY - s.prevPos.2
      { pos := (s.pos.1 + (targetX - s.pos.1) * 0.3,
                s.pos.2 + (targetY - s.pos.2) * 0.3),
        prevPos := (targetX, targetY),
        vel := (s.vel.1 * 0.8 + dx * 0.2, s.vel.2 * 0.8 + dy * 0.2),
        gesture := classifyScatter lm }
  | none =>
      { s with gesture := 0, vel := (s.vel.1 * 0.9, s.vel.2 * 0.9) }

/-- Run of the LINES detection loop over a sequence of detection results. -/
def runDetectLines (s : HandState) (l : List (Option Landmarks)) : HandState :=
  l.foldl detectStepLines s

/-- Run of the SCATTER detection loop over a sequence of detection
results. -/
def runDetectScatter (s : HandState) (l : List (Option Landmarks)) : HandState :=
  l.foldl detectStepScatter s

/-- One detection cycle with no hand found (LINES variant). -/
def stepNoneLines (s : HandState) : HandState := detectStepLines s none

/-- One detection cycle with no hand found (SCATTER variant). -/
def stepNoneScatter (s : HandState) : HandState := detectStepScatter s none

/-- Membership of a planar point in the unit square. -/
def inUnitSquare (p : ℚ × ℚ) : Prop :=
  0 ≤ p.1 ∧ p.1 ≤ 1 ∧ 0 ≤ p.2 ∧ p.2 ≤ 1

/-! ## Mesh Builder

Embedding of the grid generation in initWebGL (identical in both
variants): rows = Math.ceil(Math.sqrt(count / aspect)),
cols = Math.ceil(count / rows), and vertex (i, j) receives the UV pair
(i / (cols - 1), j / (rows - 1)). The ceiling of a real square root of a
rational q equals ceilSqrtNat applied to the ceiling of q, because an
integer n satisfies n^2 >= q exactly when n^2 >= ceil q; the lemmas
ceilSqrtQ_le and lt_ceilSqrtQ below establish this characterization. -/

/-- Least natural number whose square is at least `m`. -/
def ceilSqrtNat (m : ℕ) : ℕ :=
  if Nat.sqrt m * Nat.sqrt m = m then Nat.sqrt m else Nat.sqrt m + 1

/-- Ceiling of the square root of a nonnegative rational. -/
def ceilSqrtQ (q : ℚ) : ℕ := ceilSqrtNat ⌈q⌉₊

/-- Row count of the generated grid: Math.ceil(Math.sqrt(count / aspect)). -/
def meshRows (count : ℕ) (aspect : ℚ) : ℕ := ceilSqrtQ ((count : ℚ) / aspect)

/-- Column count of the generated grid: Math.ceil(count / rows). -/
def meshCols (count : ℕ) (aspect : ℚ) : ℕ :=
  ⌈(count : ℚ) / (meshRows count aspect : ℚ)⌉₊

/-- UV coordinates written for grid position (i, j):
(i / (cols - 1), j / (rows - 1)). -/
def meshUV (rows cols i j : ℕ) : ℚ × ℚ :=
  ((i : ℚ) / ((cols : ℚ) - 1), (j : ℚ) / ((rows : ℚ) - 1))

/-! ## Deformation and Shading Stage

Per-vertex functions of the two vertex programs. Arguments: sinq (and
cosq for the SCATTER variant) stand for the GLSL sin and cos builtins; g
is u_gesture; uv is a_uv; hand is u_hand; vel is u_handVel; aspect is
u_aspect; t is u_time; maskVal is the sampled red channel of u_mask; dist
is distance(pos.xy, handPos2D), the Euclidean distance between the
projected vertex and the aspect-corrected, y-flipped hand position,
supplied as a parameter because it is an irrational square root; tex is
the sampled source color. -/

/-- Output of the LINES vertex program: clip position and vertex color. -/
structure VSOut where
  pos : ℚ × ℚ × ℚ
  color : ℚ × ℚ × ℚ

/-- Output of the SCATTER vertex program: clip position, vertex color and
point size. -/
structure VSOutP where
  pos : ℚ × ℚ × ℚ
  color : ℚ × ℚ × ℚ
  psize : ℚ

/-- Squared length of an rgb triple; the source compares
length(texColor.rgb) < 0.01, equivalent to this square being below
0.0001. -/
def texLen2 (c : ℚ × ℚ × ℚ) : ℚ := c.1 ^ 2 + c.2.1 ^ 2 + c.2.2 ^ 2

/-- Grayscale predicate on an rgb triple. -/
def isGray (c : ℚ × ℚ × ℚ) : Prop := c.1 = c.2.1 ∧ c.2.1 = c.2.2

/-- Falloff weight of the open-hand wave warp in the LINES variant:
smoothstep(0.65, 0.0, dist). -/
def waveInfluenceL (d : ℚ) : ℚ := smoothstepq 0.65 0 d

/-- Depth falloff of the fist press warp in the LINES variant:
(0.25 - dist) * 0.6, the amount subtracted from pos.z inside the radius. -/
def pressFalloffL (d : ℚ) : ℚ := (0.25 - d) * 0.6

/-- Strength of the pinch tension warp in the LINES variant:
(0.3 - dist) / 0.3. -/
def tensionStrengthL (d : ℚ) : ℚ := (0.3 - d) / 0.3

/-- Vertex program of the LINES variant (WeaveCanvas.tsx VERTEX_SHADER
main), branch for branch. -/
def vertexMainLines (sinq : ℚ → ℚ) (g : ℚ) (uv hand vel : ℚ × ℚ)
    (aspect t maskVal dist : ℚ) (tex : ℚ × ℚ × ℚ) : VSOut :=
  let gray := 0.299 * tex.1 + 0.587 * tex.2.1 + 0.114 * tex.2.2
  let bw : ℚ × ℚ × ℚ := (gray * 0.8, gray * 0.8, gray * 0.8)
  let bc : ℚ × ℚ × ℚ :=
    if texLen2 tex < 0.0001 then (0.1, 0.1, 0.1)
    else (mixq bw.1 (tex.1 * 1.5) maskVal,
          mixq bw.2.1 (tex.2.1 * 1.5) maskVal,
          mixq bw.2.2 (tex.2.2 * 1.5) maskVal)
  let px := (uv.1 - 0.5) * 2 * aspect
  let py := (uv.2 - 0.5) * 2
  let hx := hand.1 * aspect
  let hy := 1 - hand.2
  if 1.5 < g ∧ g < 2.5 ∧ 0.1 < maskVal then
    if dist < 0.65 then
      let influence := waveInfluenceL dist
      let px1 := mixq px (hx + (px - hx) * 0.7) (influence * 0.3)
      let py1 := mixq py (hy + (py - hy) * 0.7) (influence * 0.3)
      let px2 := px1 + vel.1 * influence * 12
      let py2 := py1 + vel.2 * influence * 12
      let pz := 0 + sinq (dist * 12 - t * 6) * influence * 1.2
      ⟨(px2, py2, pz),
       (bc.1 + 0 * influence, bc.2.1 + 0.4 * influence,
        bc.2.2 + 0.6 * influence)⟩
    else ⟨(px, py, 0), bc⟩
  else if 0.5 < g ∧ g < 1.5 then
    if dist < 0.25 then ⟨(px, py, 0 - pressFalloffL dist), bc⟩
    else ⟨(px, py, 0), bc⟩
  else if 3.5 < g then
    if dist < 0.3 then
      let strength := tensionStrengthL dist
      let tension := sinq (dist * 60 - t * 12) * strength * 0.1
      let px1 := mixq px hx (strength * 0.05)
      let py1 := mixq py hy (strength * 0.05)
      ⟨(px1, py1, 0 + tension),
       (bc.1 + 0.3 * strength, bc.2.1 + 0 * strength,
        bc.2.2 + 0.3 * strength)⟩
    else ⟨(px, py, 0), bc⟩
  else ⟨(px, py, 0), bc⟩

/-- Vertex program of the SCATTER variant (part_000 VERTEX_SHADER main),
branch for branch; basePSize is the u_pointSize uniform. -/
def vertexMainScatter (sinq cosq : ℚ → ℚ) (g : ℚ) (uv hand vel : ℚ × ℚ)
    (aspect t maskVal dist basePSize : ℚ) (tex : ℚ × ℚ × ℚ) : VSOutP :=
  let gray := 0.299 * tex.1 + 0.587 * tex.2.1 + 0.114 * tex.2.2
  let bw : ℚ × ℚ × ℚ := (gray * 0.8, gray * 0.8, gray * 0.8)
  let bc : ℚ × ℚ × ℚ :=
    if texLen2 tex < 0.0001 then (0.1, 0.1, 0.1)
    else (mixq bw.1 (tex.1 * 1.2) maskVal,
          mixq bw.2.1 (tex.2.1 * 1.2) maskVal,
          mixq bw.2.2 (tex.2.2 * 1.2) maskVal)
  let px := (uv.1 - 0.5) * 2 * aspect
  let py := (uv.2 - 0.5) * 2
  let hx := hand.1 * aspect
  let hy := 1 - hand.2
  let out : (ℚ × ℚ × ℚ) × (ℚ × ℚ × ℚ) :=
    if 3.5 < g ∧ 0.1 < maskVal then
      if dist < 0.5 then
        let influence := smoothstepq 0.5 0 dist
        let px1 := mixq px (hx + (px - hx) * 0.6) (influence * 0.4)
        let py1 := mixq py (hy + (py - hy) * 0.6) (influence * 0.4)
        let px2 := px1 + vel.1 * influence * 3
        let py2 := py1 + vel.2 * influence * 3
        let weave := sinq (uv.1 * 150) * cosq (uv.2 * 150)
        ⟨(px2, py2, 0 + weave * 2),
         (bc.1 + 0.2 * influence, bc.2.1 + 0.1 * influence,
          bc.2.2 + 0.3 * influence)⟩
      else ⟨(px, py, 0), bc⟩
    else if 0.5 < g ∧ g < 1.5 then
      if dist < 0.2 then ⟨(px, py, 0 - (0.2 - dist) * 0.5), bc⟩
      else ⟨(px, py, 0), bc⟩
    else if 1.5 < g ∧ g < 2.5 then
      if dist < 0.4 then
        let strength := (0.4 - dist) / 0.4
        let ripple := sinq (dist * 40 - t * 8) * strength * 0.15
        ⟨(px, py, 0 + ripple), bc⟩
      else ⟨(px, py, 0), bc⟩
    else ⟨(px, py, 0), bc⟩
  let ps :=
    if 0.5 < maskVal then
      if 3.5 < g ∧ dist < 0.5 then basePSize * 1.5 * 0.8 else basePSize * 1.5
    else basePSize
  ⟨out.1, out.2, ps⟩

/-! ## Frame Orchestrator clock

The render loop computes time = (now - startTime) / 1000 and passes it as
u_time. The configured speed option is in scope through config but is
never read by WeaveCanvas in either variant; it is kept here as an
explicit (ignored) argument to state that fact. -/

/-- Animation clock passed to the shaders each frame. -/
def uTimeLines (now start speed : ℚ) : ℚ := (now - start) / 1000

/-! Concrete landmark sets used to instantiate hypotheses of the claim
theorems. -/

/-- Hand satisfying both the strict fist test (middle and ring tips at
half their base distance to the wrist) and the pinch test (thumb tip on
the index tip). -/
def lmFistPinch : Landmarks :=
  ⟨(0, 0), (1/2, 1/2), (1/2, 1/2), (0, 1/2), (0, 1), (0, 1/2), (0, 1)⟩

/-- Hand with neutral (uncurled) fingers whose thumb tip touches the
index tip: pinch holds, neither fist test holds. -/
def lmNeutralPinch : Landmarks :=
  ⟨(0, 0), (1/2, 1/2), (1/2, 1/2), (0, 1), (0, 1), (0, 1), (0, 1)⟩

end Weave

namespace Weave

theorem brushAlpha_nonneg (d : ℚ) (hd : 0 ≤ d) : 0 ≤ brushAlpha d := by
  unfold brushAlpha
  split <;> nlinarith

theorem brushAlpha_le_one (d : ℚ) (hd : 0 ≤ d) : brushAlpha d ≤ 1 := by
  unfold brushAlpha
  split <;> nlinarith

theorem applyStroke_mono (a m : ℚ) (ha : 0 ≤ a) : m ≤ applyStroke a m := by
  unfold applyStroke
  nlinarith [le_max_left m (1 : ℚ), le_max_right m (1 : ℚ)]

theorem applyStroke_le_one (a m : ℚ) (ha0 : 0 ≤ a) (ha1 : a ≤ 1)
    (hm : m ≤ 1) : applyStroke a m ≤ 1 := by
  unfold applyStroke
  rw [max_eq_right hm]
  nlinarith

theorem paintPixel_bounds (m : ℚ) (ds : List ℚ)
    (hm : m ≤ 1) (hds : ∀ x ∈ ds, 0 ≤ x) :
    m ≤ paintPixel m ds ∧ paintPixel m ds ≤ 1 := by
  induction ds generalizing m with
  | nil => exact ⟨le_refl m, hm⟩
  | cons d tl ih =>
      have hd : 0 ≤ d := hds d (List.mem_cons_self d tl)
      have ha0 : 0 ≤ brushAlpha d := brushAlpha_nonneg d hd
      have ha1 : brushAlpha d ≤ 1 := brushAlpha_le_one d hd
      have hstep : m ≤ applyStroke (brushAlpha d) m := applyStroke_mono _ _ ha0
      have hstep1 : applyStroke (brushAlpha d) m ≤ 1 :=
        applyStroke_le_one _ _ ha0 ha1 hm
      have htl := ih (applyStroke (brushAlpha d) m) hstep1
        (fun x hx => hds x (List.mem_cons_of_mem d hx))
      refine ⟨le_trans hstep ?_, ?_⟩
      · exact (htl.1)
      · exact (htl.2)

/-! Characterization of ceilSqrtNat and ceilSqrtQ as ceilings of square
roots: ceilSqrtQ q is at most n exactly when q is at most n squared. -/

theorem ceilSqrtNat_le {m n : ℕ} (h : m ≤ n * n) : ceilSqrtNat m ≤ n := by
  unfold ceilSqrtNat
  have hs : Nat.sqrt m ≤ n := by
    have : Nat.sqrt m < n + 1 := Nat.sqrt_lt.mpr (by nlinarith)
    omega
  split
  · exact hs
  · rename_i hne
    have hlt : Nat.sqrt m < n := by
      rcases Nat.lt_or_ge (Nat.sqrt m) n with hlt | hge
      · exact hlt
      · exfalso
        have heq : Nat.sqrt m = n := le_antisymm hs hge
        have h1 : m ≤ Nat.sqrt m * Nat.sqrt m := by rw [heq]; exact h
        have h2 : Nat.sqrt m * Nat.sqrt m ≤ m := Nat.sqrt_le m
        exact hne (le_antisymm h2 h1)
    omega

theorem lt_ceilSqrtNat {m n : ℕ} (h : n * n < m) : n < ceilSqrtNat m := by
  unfold ceilSqrtNat
  have hn : n ≤ Nat.sqrt m := Nat.le_sqrt.mpr (le_of_lt h)
  split
  · rename_i heq
    have hne : n ≠ Nat.sqrt m := by
      intro he
      rw [← he] at heq
      omega
    omega
  · omega

theorem ceilSqrtQ_le {q : ℚ} {n : ℕ} (h : q ≤ (n : ℚ) ^ 2) : ceilSqrtQ q ≤ n := by
  unfold ceilSqrtQ
  refine ceilSqrtNat_le (n := n) ?_
  have : q ≤ ((n * n : ℕ) : ℚ) := by push_cast; nlinarith
  exact Nat.ceil_le.mpr this

theorem lt_ceilSqrtQ {q : ℚ} {n : ℕ} (h : (n : ℚ) ^ 2 < q) : n < ceilSqrtQ q := by
  unfold ceilSqrtQ
  refine lt_ceilSqrtNat (m := ⌈q⌉₊) ?_
  have : ((n * n : ℕ) : ℚ) < q := by push_cast; nlinarith
  exact Nat.lt_ceil.mpr this

/-- C1: between resizes, any sequence of FIST paint stamps is pixelwise
monotone (one lighten stamp can only raise a pixel value), keeps every
pixel value at most 1 while staying at least its starting value, and
after any change of the display surface dimensions the fresh mask reads
exactly 0 at every pixel. -/
theorem C1_mask_monotone_bounded_reset (m d : ℚ) (ds : List ℚ)
    (hm0 : 0 ≤ m) (hm1 : m ≤ 1) (hd : 0 ≤ d) (hds : ∀ x ∈ ds, 0 ≤ x) :
    m ≤ applyStroke (brushAlpha d) m ∧
    m ≤ paintPixel m ds ∧
    0 ≤ paintPixel m ds ∧ paintPixel m ds ≤ 1 ∧
    ∀ p, resizedMask p = 0 := by
  have hb := paintPixel_bounds m ds hm1 hds
  exact ⟨applyStroke_mono _ _ (brushAlpha_nonneg d hd), hb.1,
    le_trans hm0 hb.1, hb.2, fun _ => rfl⟩

/-- Witness for C1 at a pixel of value 1/2, one stamp at distance 40, and
the stamp sequence with distances 40 and 100. -/
theorem C1_mask_monotone_bounded_reset_witness :
    (1/2 : ℚ) ≤ applyStroke (brushAlpha 40) (1/2) ∧
    (1/2 : ℚ) ≤ paintPixel (1/2) [40, 100] ∧
    0 ≤ paintPixel (1/2 : ℚ) [40, 100] ∧ paintPixel (1/2 : ℚ) [40, 100] ≤ 1 ∧
    ∀ p, resizedMask p = 0 :=
  C1_mask_monotone_bounded_reset (1/2) 40 [40, 100] (by norm_num) (by norm_num)
    (by norm_num) (by intro x hx; simp only [List.mem_cons, List.not_mem_nil,
      or_false] at hx; rcases hx with h | h <;> rw [h] <;> norm_num)

/-- C2 counterexample: at the configured vertex count 2000 (inside the
allowed 2000 to 50000 range) with a build-time aspect ratio of 2000, the
Mesh Builder computes rows = ceil(sqrt(2000 / 2000)) = 1, so the claimed
invariant rows >= 2 fails and the UV normalization j / (rows - 1) divides
by zero. -/
theorem C2_counterexample : meshRows 2000 2000 = 1 := by
  have h1 : ((2000 : ℕ) : ℚ) / (2000 : ℚ) = 1 := by norm_num
  rw [meshRows, ceilSqrtQ, h1]
  norm_num [ceilSqrtNat]

/-- C2 amended: for every configured target vertex count in 2000 to 50000
and every build-time display aspect ratio between 1/4 and 16, the grid
satisfies rows >= 2 and cols >= 2 (so the UV normalization divisions are
never by zero) and the generated vertex UVs attain exactly 0 and exactly
1 at the grid corners. -/
theorem C2_mesh_grid_nondegenerate (count : ℕ) (aspect : ℚ)
    (hc1 : 2000 ≤ count) (hc2 : count ≤ 50000)
    (ha1 : 1/4 ≤ aspect) (ha2 : aspect ≤ 16) :
    2 ≤ meshRows count aspect ∧ 2 ≤ meshCols count aspect ∧
    meshUV (meshRows count aspect) (meshCols count aspect) 0 0 = (0, 0) ∧
    meshUV (meshRows count aspect) (meshCols count aspect)
      (meshCols count aspect - 1) (meshRows count aspect - 1) = (1, 1) := by
  have ha0 : (0 : ℚ) < aspect := lt_of_lt_of_le (by norm_num) ha1
  have hcQ1 : (2000 : ℚ) ≤ (count : ℚ) := by exact_mod_cast hc1
  have hcQ2 : (count : ℚ) ≤ 50000 := by exact_mod_cast hc2
  have hrows2 : 2 ≤ meshRows count aspect := by
    have : ((1 : ℕ) : ℚ) ^ 2 < (count : ℚ) / aspect := by
      rw [lt_div_iff ha0]
      push_cast
      nlinarith
    exact lt_ceilSqrtQ this
  have hrows450 : meshRows count aspect ≤ 450 := by
    have : (count : ℚ) / aspect ≤ ((450 : ℕ) : ℚ) ^ 2 := by
      rw [div_le_iff ha0]
      push_cast
      nlinarith
    exact ceilSqrtQ_le this
  have hrpos : (0 : ℚ) < (meshRows count aspect : ℚ) := by
    have : (0 : ℕ) < meshRows count aspect := by omega
    exact_mod_cast this
  have hcols2 : 2 ≤ meshCols count aspect := by
    have h1 : ((1 : ℕ) : ℚ) < (count : ℚ) / (meshRows count aspect : ℚ) := by
      rw [lt_div_iff hrpos]
      have : ((meshRows count aspect : ℕ) : ℚ) ≤ 450 := by exact_mod_cast hrows450
      push_cast
      nlinarith
    have := Nat.lt_ceil.mpr h1
    unfold meshCols
    omega
  have hcolsQ : (2 : ℚ) ≤ (meshCols count aspect : ℚ) := by exact_mod_cast hcols2
  have hrowsQ : (2 : ℚ) ≤ (meshRows count aspect : ℚ) := by exact_mod_cast hrows2
  have hcne : ((meshCols count aspect : ℚ) - 1) ≠ 0 := by intro h; nlinarith
  have hrne : ((meshRows count aspect : ℚ) - 1) ≠ 0 := by intro h; nlinarith
  refine ⟨hrows2, hcols2, ?_, ?_⟩
  · unfold meshUV
    norm_num
  · unfold meshUV
    have hc1' : (1 : ℕ) ≤ meshCols count aspect := by omega
    have hr1' : (1 : ℕ) ≤ meshRows count aspect := by omega
    rw [Nat.cast_sub hc1', Nat.cast_sub hr1']
    push_cast
    rw [div_self hcne, div_self hrne]

/-- Witness for C2 amended at count 15000 and aspect ratio 2. -/
theorem C2_mesh_grid_nondegenerate_witness :
    2 ≤ meshRows 15000 2 ∧ 2 ≤ meshCols 15000 2 ∧
    meshUV (meshRows 15000 2) (meshCols 15000 2) 0 0 = (0, 0) ∧
    meshUV (meshRows 15000 2) (meshCols 15000 2)
      (meshCols 15000 2 - 1) (meshRows 15000 2 - 1) = (1, 1) :=
  C2_mesh_grid_nondegenerate 15000 2 (by norm_num) (by norm_num)
    (by norm_num) (by norm_num)

/-- C3 counterexample: the tension warp strength at distance 0.1 is the
linear value (0.3 - 0.1) / 0.3 = 2/3, which differs from
smoothstep(0.3, 0, 0.1) = 20/27; and the press falloff is not even
proportional to smoothstep(0.25, 0, dist), as the cross products at
distances 0.05 and 0.2 differ. So not all three warps compute their
strength as smoothstep(radius, 0, distance). -/
theorem C3_counterexample :
    tensionStrengthL 0.1 ≠ smoothstepq 0.3 0 0.1 ∧
    pressFalloffL 0.05 * smoothstepq 0.25 0 0.2 ≠
      pressFalloffL 0.2 * smoothstepq 0.25 0 0.05 := by
  constructor <;>
    norm_num [tensionStrengthL, pressFalloffL, smoothstepq, clampq,
      max_def, min_def]

/-- C3 amended: in the LINES deformation function only the open-hand
pull-and-wave warp computes its strength as the smooth falloff
smoothstep(radius, 0, distance); the press warp scales depth by the
linear falloff (0.25 - distance) * 0.6 and the tension/ripple warp uses
the linear strength (0.3 - distance) / 0.3, each applied under a hard
branch cutoff at its radius. -/
theorem C3_warp_falloffs (sinq : ℚ → ℚ) (uv hand vel : ℚ × ℚ)
    (aspect t maskVal dist : ℚ) (tex : ℚ × ℚ × ℚ) :
    (0.1 < maskVal → dist < 0.65 →
      (vertexMainLines sinq 2 uv hand vel aspect t maskVal dist tex).pos.2.2
        = sinq (dist * 12 - t * 6) * smoothstepq 0.65 0 dist * 1.2) ∧
    (dist < 0.25 →
      (vertexMainLines sinq 1 uv hand vel aspect t maskVal dist tex).pos.2.2
        = 0 - (0.25 - dist) * 0.6) ∧
    (dist < 0.3 →
      (vertexMainLines sinq 4 uv hand vel aspect t maskVal dist tex).pos.2.2
        = sinq (dist * 60 - t * 12) * ((0.3 - dist) / 0.3) * 0.1) := by
  refine ⟨?_, ?_, ?_⟩
  · intro hm hd
    have hg : (1.5 : ℚ) < 2 ∧ (2 : ℚ) < 2.5 ∧ 0.1 < maskVal :=
      ⟨by norm_num, by norm_num, hm⟩
    simp only [vertexMainLines, waveInfluenceL, if_pos hg, if_pos hd]
    ring
  · intro hd
    have hA : ¬((1.5 : ℚ) < 1 ∧ (1 : ℚ) < 2.5 ∧ 0.1 < maskVal) :=
      fun h => absurd h.1 (by norm_num)
    have hB : (0.5 : ℚ) < 1 ∧ (1 : ℚ) < 1.5 := ⟨by norm_num, by norm_num⟩
    simp only [vertexMainLines, pressFalloffL, if_neg hA, if_pos hB, if_pos hd]
  · intro hd
    have hA : ¬((1.5 : ℚ) < 4 ∧ (4 : ℚ) < 2.5 ∧ 0.1 < maskVal) :=
      fun h => absurd h.2.1 (by norm_num)
    have hB : ¬((0.5 : ℚ) < 4 ∧ (4 : ℚ) < 1.5) :=
      fun h => absurd h.2 (by norm_num)
    have hC : (3.5 : ℚ) < 4 := by norm_num
    simp only [vertexMainLines, tensionStrengthL, if_neg hA, if_neg hB,
      if_pos hC, if_pos hd]
    ring

/-- Witness for C3 amended with a zero sine stand-in, gesture-specific
mask value 1, and distance 0.1 resp. 0.2. -/
theorem C3_warp_falloffs_witness :
    (vertexMainLines (fun _ => 0) 2 (0, 0) (0, 0) (0, 0) 1 0 1 0.1
      (0, 0, 0)).pos.2.2
      = (fun (_ : ℚ) => (0 : ℚ)) (0.1 * 12 - 0 * 6) * smoothstepq 0.65 0 0.1 * 1.2 ∧
    (vertexMainLines (fun _ => 0) 1 (0, 0) (0, 0) (0, 0) 1 0 1 0.2
      (0, 0, 0)).pos.2.2 = 0 - (0.25 - 0.2) * 0.6 :=
  ⟨(C3_warp_falloffs (fun _ => 0) (0, 0) (0, 0) (0, 0) 1 0 1 0.1 (0, 0, 0)).1
      (by norm_num) (by norm_num),
   (C3_warp_falloffs (fun _ => 0) (0, 0) (0, 0) (0, 0) 1 0 1 0.2 (0, 0, 0)).2.1
      (by norm_num)⟩

/-- C4: for every landmark input, including absence of a hand, the
gesture code written by either variant of the detection cycle is one of
the codes 0 (NONE), 1 (FIST), 2 (OPEN) or 4 (PINCH); and a landmark set
whose squared thumb-to-index distance is below 0.0025 (distance below
0.05) while the fist condition fails is classified 4 (PINCH), not 1
(FIST), in both variants. -/
theorem C4_gesture_codes (s : HandState) (inp : Option Landmarks) :
    ((detectStepLines s inp).gesture = 0 ∨ (detectStepLines s inp).gesture = 1 ∨
      (detectStepLines s inp).gesture = 2 ∨ (detectStepLines s inp).gesture = 4) ∧
    ((detectStepScatter s inp).gesture = 0 ∨ (detectStepScatter s inp).gesture = 1 ∨
      (detectStepScatter s inp).gesture = 2 ∨ (detectStepScatter s inp).gesture = 4) ∧
    (∀ lm : Landmarks, ¬ isFistLines lm → pinch2 lm < 0.0025 →
      classifyLines lm = 4) ∧
    (∀ lm : Landmarks, ¬ isFistScatter lm → pinch2 lm < 0.0025 →
      classifyScatter lm = 4) := by
  refine ⟨?_, ?_, ?_, ?_⟩
  · cases inp with
    | none => left; rfl
    | some lm =>
        simp only [detectStepLines, classifyLines]
        split_ifs <;> tauto
  · cases inp with
    | none => left; rfl
    | some lm =>
        simp only [detectStepScatter, classifyScatter]
        split_ifs <;> tauto
  · intro lm hnf hp
    simp only [classifyLines]
    rw [if_neg hnf, if_pos hp]
  · intro lm _ hp
    simp only [classifyScatter]
    rw [if_pos hp]

/-- Witness for C4 on the neutral-fingers pinching hand. -/
theorem C4_gesture_codes_witness :
    classifyLines lmNeutralPinch = 4 ∧ classifyScatter lmNeutralPinch = 4 :=
  ⟨(C4_gesture_codes initState none).2.2.1 lmNeutralPinch
      (by norm_num [isFistLines, dist2, lmNeutralPinch])
      (by norm_num [pinch2, dist2, lmNeutralPinch]),
   (C4_gesture_codes initState none).2.2.2 lmNeutralPinch
      (by norm_num [isFistScatter, dist2, lmNeutralPinch])
      (by norm_num [pinch2, dist2, lmNeutralPinch])⟩

/-- C5: under the FIST press gesture, in both variants, every vertex
closer to the hand than the inner radius keeps its lateral position equal
to the base projection while its depth is lowered by the amount
(innerRadius - distance) times the press factor, and every vertex at or
beyond the inner radius produces exactly the same output as with no
gesture at all. -/
theorem C5_press_indent (sinq cosq : ℚ → ℚ) (uv hand vel : ℚ × ℚ)
    (aspect t maskVal dist basePSize : ℚ) (tex : ℚ × ℚ × ℚ) :
    (dist < 0.25 →
      (vertexMainLines sinq 1 uv hand vel aspect t maskVal dist tex).pos
        = ((uv.1 - 0.5) * 2 * aspect, (uv.2 - 0.5) * 2,
            0 - (0.25 - dist) * 0.6)) ∧
    (0.25 ≤ dist →
      vertexMainLines sinq 1 uv hand vel aspect t maskVal dist tex
        = vertexMainLines sinq 0 uv hand vel aspect t maskVal dist tex) ∧
    (dist < 0.2 →
      (vertexMainScatter sinq cosq 1 uv hand vel aspect t maskVal dist
          basePSize tex).pos
        = ((uv.1 - 0.5) * 2 * aspect, (uv.2 - 0.5) * 2,
            0 - (0.2 - dist) * 0.5)) ∧
    (0.2 ≤ dist →
      vertexMainScatter sinq cosq 1 uv hand vel aspect t maskVal dist
          basePSize tex
        = vertexMainScatter sinq cosq 0 uv hand vel aspect t maskVal dist
            basePSize tex) := by
  have hAL1 : ¬((1.5 : ℚ) < 1 ∧ (1 : ℚ) < 2.5 ∧ 0.1 < maskVal) :=
    fun h => absurd h.1 (by norm_num)
  have hBL1 : (0.5 : ℚ) < 1 ∧ (1 : ℚ) < 1.5 := ⟨by norm_num, by norm_num⟩
  have hAL0 : ¬((1.5 : ℚ) < 0 ∧ (0 : ℚ) < 2.5 ∧ 0.1 < maskVal) :=
    fun h => absurd h.1 (by norm_num)
  have hBL0 : ¬((0.5 : ℚ) < 0 ∧ (0 : ℚ) < 1.5) :=
    fun h => absurd h.1 (by norm_num)
  have hCL0 : ¬((3.5 : ℚ) < 0) := by norm_num
  have hAS1 : ¬((3.5 : ℚ) < 1 ∧ 0.1 < maskVal) :=
    fun h => absurd h.1 (by norm_num)
  have hBS1 : (0.5 : ℚ) < 1 ∧ (1 : ℚ) < 1.5 := ⟨by norm_num, by norm_num⟩
  have hAS0 : ¬((3.5 : ℚ) < 0 ∧ 0.1 < maskVal) :=
    fun h => absurd h.1 (by norm_num)
  have hBS0 : ¬((0.5 : ℚ) < 0 ∧ (0 : ℚ) < 1.5) :=
    fun h => absurd h.1 (by norm_num)
  have hCS0 : ¬((1.5 : ℚ) < 0 ∧ (0 : ℚ) < 2.5) :=
    fun h => absurd h.1 (by norm_num)
  have hPS1 : ¬((3.5 : ℚ) < 1 ∧ dist < 0.5) := fun h => absurd h.1 (by norm_num)
  have hPS0 : ¬((3.5 : ℚ) < 0 ∧ dist < 0.5) := fun h => absurd h.1 (by norm_num)
  refine ⟨?_, ?_, ?_, ?_⟩
  · intro hd
    simp only [vertexMainLines, pressFalloffL, if_neg hAL1, if_pos hBL1,
      if_pos hd]
  · intro hd
    have hd' : ¬(dist < 0.25) := not_lt.mpr hd
    simp only [vertexMainLines, if_neg hAL1, if_pos hBL1, if_neg hd',
      if_neg hAL0, if_neg hBL0, if_neg hCL0]
  · intro hd
    simp only [vertexMainScatter, if_neg hAS1, if_pos hBS1, if_pos hd,
      if_neg hPS1]
  · intro hd
    have hd' : ¬(dist < 0.2) := not_lt.mpr hd
    simp only [vertexMainScatter, if_neg hAS1, if_pos hBS1, if_neg hd',
      if_neg hAS0, if_neg hBS0, if_neg hCS0, if_neg hPS1, if_neg hPS0]

/-- Witness for C5 with a zero sine and cosine stand-in, a vertex at
distance 0.1 (inside both press radii) and at distance 0.5 (outside
both). -/
theorem C5_press_indent_witness :
    (vertexMainLines (fun _ => 0) 1 (0, 0) (0, 0) (0, 0) 1 0 1 0.1
        (0, 0, 0)).pos
      = ((0 - 0.5) * 2 * 1, (0 - 0.5) * 2, 0 - (0.25 - 0.1) * 0.6) ∧
    vertexMainLines (fun _ => 0) 1 (0, 0) (0, 0) (0, 0) 1 0 1 0.5 (0, 0, 0)
      = vertexMainLines (fun _ => 0) 0 (0, 0) (0, 0) (0, 0) 1 0 1 0.5
          (0, 0, 0) ∧
    (vertexMainScatter (fun _ => 0) (fun _ => 0) 1 (0, 0) (0, 0) (0, 0) 1 0 1
        0.1 3 (0, 0, 0)).pos
      = ((0 - 0.5) * 2 * 1, (0 - 0.5) * 2, 0 - (0.2 - 0.1) * 0.5) ∧
    vertexMainScatter (fun _ => 0) (fun _ => 0) 1 (0, 0) (0, 0) (0, 0) 1 0 1
        0.5 3 (0, 0, 0)
      = vertexMainScatter (fun _ => 0) (fun _ => 0) 0 (0, 0) (0, 0) (0, 0) 1 0
          1 0.5 3 (0, 0, 0) :=
  ⟨(C5_press_indent (fun _ => 0) (fun _ => 0) (0, 0) (0, 0) (0, 0) 1 0 1 0.1 3
      (0, 0, 0)).1 (by norm_num),
   (C5_press_indent (fun _ => 0) (fun _ => 0) (0, 0) (0, 0) (0, 0) 1 0 1 0.5 3
      (0, 0, 0)).2.1 (by norm_num),
   (C5_press_indent (fun _ => 0) (fun _ => 0) (0, 0) (0, 0) (0, 0) 1 0 1 0.1 3
      (0, 0, 0)).2.2.1 (by norm_num),
   (C5_press_indent (fun _ => 0) (fun _ => 0) (0, 0) (0, 0) (0, 0) 1 0 1 0.5 3
      (0, 0, 0)).2.2.2 (by norm_num)⟩

/-! Velocity decay of the no-hand detection cycle. -/

theorem stepNoneLines_vel_iterate (s : HandState) (n : ℕ) :
    ((stepNoneLines^[n]) s).vel = (s.vel.1 * 0.9 ^ n, s.vel.2 * 0.9 ^ n) := by
  induction n with
  | zero => simp
  | succ k ih =>
      rw [Function.iterate_succ_apply']
      have h : (stepNoneLines ((stepNoneLines^[k]) s)).vel
          = (((stepNoneLines^[k]) s).vel.1 * 0.9,
             ((stepNoneLines^[k]) s).vel.2 * 0.9) := rfl
      rw [h, ih]
      simp only [Prod.mk.injEq]
      constructor <;> ring

theorem stepNoneScatter_vel_iterate (s : HandState) (n : ℕ) :
    ((stepNoneScatter^[n]) s).vel = (s.vel.1 * 0.9 ^ n, s.vel.2 * 0.9 ^ n) := by
  induction n with
  | zero => simp
  | succ k ih =>
      rw [Function.iterate_succ_apply']
      have h : (stepNoneScatter ((stepNoneScatter^[k]) s)).vel
          = (((stepNoneScatter^[k]) s).vel.1 * 0.9,
             ((stepNoneScatter^[k]) s).vel.2 * 0.9) := rfl
      rw [h, ih]
      simp only [Prod.mk.injEq]
      constructor <;> ring

/-- C6: once detection is lost and stays lost, each cycle multiplies both
velocity components by 0.9 in either variant, so after n cycles each
component is scaled by 0.9 to the n; 0.9 to the 44 is below 0.01, and a
velocity of initial magnitude at most 1 (squared magnitude at most 1)
falls below magnitude 0.01 (squared magnitude below 0.01 squared) after
44 cycles. -/
theorem C6_velocity_decay (s : HandState) (n : ℕ) :
    (stepNoneLines s).vel = (s.vel.1 * 0.9, s.vel.2 * 0.9) ∧
    ((stepNoneLines^[n]) s).vel = (s.vel.1 * 0.9 ^ n, s.vel.2 * 0.9 ^ n) ∧
    ((stepNoneScatter^[n]) s).vel = (s.vel.1 * 0.9 ^ n, s.vel.2 * 0.9 ^ n) ∧
    (0.9 : ℚ) ^ 44 < 0.01 ∧
    (s.vel.1 ^ 2 + s.vel.2 ^ 2 ≤ 1 →
      ((stepNoneLines^[44]) s).vel.1 ^ 2 + ((stepNoneLines^[44]) s).vel.2 ^ 2
        < 0.01 ^ 2) := by
  have h44 : (0.9 : ℚ) ^ 44 < 0.01 := by norm_num
  refine ⟨rfl, stepNoneLines_vel_iterate s n, stepNoneScatter_vel_iterate s n,
    h44, ?_⟩
  intro hv
  have h := stepNoneLines_vel_iterate s 44
  have h1 : ((stepNoneLines^[44]) s).vel.1 = s.vel.1 * 0.9 ^ 44 := by rw [h]
  have h2 : ((stepNoneLines^[44]) s).vel.2 = s.vel.2 * 0.9 ^ 44 := by rw [h]
  rw [h1, h2]
  have hps : (0 : ℚ) ≤ 0.9 ^ 44 := by positivity
  have hpp : (0.9 : ℚ) ^ 44 * 0.9 ^ 44 < 0.01 * 0.01 := by nlinarith
  nlinarith [hpp, hv, mul_nonneg hps hps, sq_nonneg s.vel.1, sq_nonneg s.vel.2]

/-- Witness for C6 from the initial state after 44 lost cycles. -/
theorem C6_velocity_decay_witness :
    ((stepNoneLines^[44]) initState).vel.1 ^ 2 +
      ((stepNoneLines^[44]) initState).vel.2 ^ 2 < 0.01 ^ 2 :=
  (C6_velocity_decay initState 44).2.2.2.2 (by norm_num [initState])

/-- C7 (code bug evidence): the animation clock passed to the shading
stage is (now - start) / 1000 and is independent of the configured speed
option, so at speed 0.0 one elapsed second is still passed as time 1
instead of 0 as the spec requires. -/
theorem C7_speed_unused (now start s1 s2 : ℚ) :
    uTimeLines now start s1 = uTimeLines now start s2 ∧
    uTimeLines 2000 1000 0 = 1 :=
  ⟨rfl, by norm_num [uTimeLines]⟩

/-! Gesture code under a fully hand-free session. -/

theorem stepNoneLines_gesture_iterate (n : ℕ) :
    ((stepNoneLines^[n]) initState).gesture = 0 := by
  cases n with
  | zero => rfl
  | succ k => rw [Function.iterate_succ_apply']; rfl

theorem stepNoneScatter_gesture_iterate (n : ℕ) :
    ((stepNoneScatter^[n]) initState).gesture = 0 := by
  cases n with
  | zero => rfl
  | succ k => rw [Function.iterate_succ_apply']; rfl

/-- C8: with no hand detected the whole session the gesture code stays 0
after every cycle in both variants, and the deformation of every vertex
at gesture 0 with an all-zero mask is the bare aspect-corrected
projection with zero depth, while the output color is grayscale (equal
rgb channels) in both variants. -/
theorem C8_no_hand_session (n : ℕ) (sinq cosq : ℚ → ℚ)
    (uv hand vel : ℚ × ℚ) (aspect t dist basePSize : ℚ) (tex : ℚ × ℚ × ℚ) :
    ((stepNoneLines^[n]) initState).gesture = 0 ∧
    ((stepNoneScatter^[n]) initState).gesture = 0 ∧
    (vertexMainLines sinq 0 uv hand vel aspect t 0 dist tex).pos
      = ((uv.1 - 0.5) * 2 * aspect, (uv.2 - 0.5) * 2, 0) ∧
    isGray (vertexMainLines sinq 0 uv hand vel aspect t 0 dist tex).color ∧
    (vertexMainScatter sinq cosq 0 uv hand vel aspect t 0 dist basePSize
        tex).pos
      = ((uv.1 - 0.5) * 2 * aspect, (uv.2 - 0.5) * 2, 0) ∧
    isGray (vertexMainScatter sinq cosq 0 uv hand vel aspect t 0 dist
        basePSize tex).color := by
  have hAL : ¬((1.5 : ℚ) < 0 ∧ (0 : ℚ) < 2.5 ∧ (0.1 : ℚ) < 0) :=
    fun h => absurd h.1 (by norm_num)
  have hBL : ¬((0.5 : ℚ) < 0 ∧ (0 : ℚ) < 1.5) :=
    fun h => absurd h.1 (by norm_num)
  have hCL : ¬((3.5 : ℚ) < 0) := by norm_num
  have hAS : ¬((3.5 : ℚ) < 0 ∧ (0.1 : ℚ) < 0) :=
    fun h => absurd h.1 (by norm_num)
  have hCS : ¬((1.5 : ℚ) < 0 ∧ (0 : ℚ) < 2.5) :=
    fun h => absurd h.1 (by norm_num)
  refine ⟨stepNoneLines_gesture_iterate n, stepNoneScatter_gesture_iterate n,
    ?_, ?_, ?_, ?_⟩
  · simp only [vertexMainLines, if_neg hAL, if_neg hBL, if_neg hCL]
  · simp only [vertexMainLines, if_neg hAL, if_neg hBL, if_neg hCL, isGray,
      mixq]
    split_ifs
    · exact ⟨rfl, rfl⟩
    · constructor <;> ring
  · simp only [vertexMainScatter, if_neg hAS, if_neg hBL, if_neg hCS]
  · simp only [vertexMainScatter, if_neg hAS, if_neg hBL, if_neg hCS, isGray,
      mixq]
    split_ifs
    · exact ⟨rfl, rfl⟩
    · constructor <;> ring

/-- C9: a hand that simultaneously satisfies the strict fist condition
(middle and ring tips curled within 0.85 of their base-to-wrist
distances) and the pinch condition (squared thumb-to-index distance
below 0.0025) is classified 1 (FIST) by the LINES variant, which tests
the fist first, and 4 (PINCH) by the SCATTER variant, which tests the
pinch first. -/
theorem C9_variant_priority (lm : Landmarks)
    (hf : isFistLines lm) (hp : pinch2 lm < 0.0025) :
    classifyLines lm = 1 ∧ classifyScatter lm = 4 := by
  constructor
  · simp only [classifyLines, if_pos hf]
  · simp only [classifyScatter, if_pos hp]

/-- Witness for C9 on the curled pinching hand. -/
theorem C9_variant_priority_witness :
    classifyLines lmFistPinch = 1 ∧ classifyScatter lmFistPinch = 4 :=
  C9_variant_priority lmFistPinch
    (by norm_num [isFistLines, dist2, lmFistPinch])
    (by norm_num [pinch2, dist2, lmFistPinch])

/-! Smoothed position invariant. -/

theorem detectStepLines_pos_mem (s : HandState) (inp : Option Landmarks)
    (hs : inUnitSquare s.pos)
    (hin : ∀ lm, inp = some lm → inUnitSquare lm.middleMcp) :
    inUnitSquare (detectStepLines s inp).pos := by
  cases inp with
  | none => exact hs
  | some lm =>
      obtain ⟨h1, h2, h3, h4⟩ := hs
      obtain ⟨m1, m2, m3, m4⟩ := hin lm rfl
      simp only [detectStepLines, inUnitSquare]
      refine ⟨?_, ?_, ?_, ?_⟩ <;> nlinarith

theorem detectStepScatter_pos_mem (s : HandState) (inp : Option Landmarks)
    (hs : inUnitSquare s.pos)
    (hin : ∀ lm, inp = some lm → inUnitSquare lm.middleMcp) :
    inUnitSquare (detectStepScatter s inp).pos := by
  cases inp with
  | none => exact hs
  | some lm =>
      obtain ⟨h1, h2, h3, h4⟩ := hs
      obtain ⟨m1, m2, m3, m4⟩ := hin lm rfl
      simp only [detectStepScatter, inUnitSquare]
      refine ⟨?_, ?_, ?_, ?_⟩ <;> nlinarith

theorem runDetectLines_pos_mem (l : List (Option Landmarks)) (s : HandState)
    (hs : inUnitSquare s.pos)
    (hin : ∀ lm, some lm ∈ l → inUnitSquare lm.middleMcp) :
    inUnitSquare (runDetectLines s l).pos := by
  induction l generalizing s with
  | nil => exact hs
  | cons a tl ih =>
      simp only [runDetectLines, List.foldl_cons]
      refine ih (detectStepLines s a) ?_ ?_
      · exact detectStepLines_pos_mem s a hs
          (fun lm he => hin lm (by rw [he]; exact List.mem_cons_self _ _))
      · intro lm hm
        exact hin lm (List.mem_cons_of_mem a hm)

theorem runDetectScatter_pos_mem (l : List (Option Landmarks)) (s : HandState)
    (hs : inUnitSquare s.pos)
    (hin : ∀ lm, some lm ∈ l → inUnitSquare lm.middleMcp) :
    inUnitSquare (runDetectScatter s l).pos := by
  induction l generalizing s with
  | nil => exact hs
  | cons a tl ih =>
      simp only [runDetectScatter, List.foldl_cons]
      refine ih (detectStepScatter s a) ?_ ?_
      · exact detectStepScatter_pos_mem s a hs
          (fun lm he => hin lm (by rw [he]; exact List.mem_cons_self _ _))
      · intro lm hm
        exact hin lm (List.mem_cons_of_mem a hm)

/-- C10: the smoothed hand position starts at (0.5, 0.5), a detection
cycle without a hand leaves it unchanged, and under any sequence of
detection results whose raw position landmark lies in the unit square
the smoothed position stays inside the unit square in both variants. -/
theorem C10_pos_invariant (s : HandState) (l : List (Option Landmarks))
    (h : ∀ lm : Landmarks, some lm ∈ l → inUnitSquare lm.middleMcp) :
    initState.pos = (0.5, 0.5) ∧
    (detectStepLines s none).pos = s.pos ∧
    (detectStepScatter s none).pos = s.pos ∧
    inUnitSquare (runDetectLines initState l).pos ∧
    inUnitSquare (runDetectScatter initState l).pos := by
  have hinit : inUnitSquare initState.pos := by
    simp only [initState, inUnitSquare]
    norm_num
  exact ⟨rfl, rfl, rfl, runDetectLines_pos_mem l initState hinit h,
    runDetectScatter_pos_mem l initState hinit h⟩

/-- Witness for C10 on the two-cycle session: one detected hand followed
by a dropout. -/
theorem C10_pos_invariant_witness :
    inUnitSquare (runDetectLines initState [some lmFistPinch, none]).pos ∧
    inUnitSquare (runDetectScatter initState [some lmFistPinch, none]).pos := by
  have hmem : ∀ lm : Landmarks, some lm ∈ [some lmFistPinch, none] →
      inUnitSquare lm.middleMcp := by
    intro lm hm
    simp only [List.mem_cons, List.not_mem_nil, or_false] at hm
    rcases hm with h | h
    · have he : lm = lmFistPinch := Option.some_injective _ h
      rw [he]
      simp only [lmFistPinch, inUnitSquare]
      norm_num
    · exact absurd h (by simp)
  exact ⟨(C10_pos_invariant initState [some lmFistPinch, none] hmem).2.2.2.1,
    (C10_pos_invariant initState [some lmFistPinch, none] hmem).2.2.2.2⟩

end Weave
